import Mathlib

/-
Verification development for the TuneFlip batch media-to-audio conversion
pipeline.  The definitions below are a shallow embedding of the
orchestration core (`src/lib/convert.ts`) and of the transcoding backend
adapter surface the core depends on (`src/lib/ffmpeg`-style module).

Modelling conventions:
* JavaScript `undefined` is `Option.none`; `a ?? b` is modelled by
  `jsNullish`; `a || b` on strings (where the empty string is falsy) is
  modelled by `jsOrS` / `jsOrStr`.
* JavaScript numbers that the code feeds through `Number(...)` are
  modelled as rationals (`ℚ`); `NaN` is `none`.  The modelled fragment of
  `Number` covers optionally signed decimal literals with optional
  fractional part and surrounding whitespace (exotic forms such as hex or
  exponents are outside the model).
* Filesystem state is a map from absolute path to an optional
  modification time (`String → Option Nat`).
* The external transcoding engine is abstracted by per-task environments
  (`TaskEnv`) describing the outcome of each backend call.
-/

namespace TuneFlip

/-! ## JavaScript-semantics primitives -/

/-- JavaScript whitespace class `\s` (restricted to the whitespace
characters Lean's `Char.isWhitespace` recognises). -/
def jsWs (c : Char) : Bool := c.isWhitespace

/-- The nullish-coalescing operator `a ?? b` on possibly-undefined strings. -/
def jsNullish (a b : Option String) : Option String :=
  match a with
  | some s => some s
  | none => b

/-- The JavaScript `a || b` operator on possibly-undefined strings: the
empty string is falsy and falls through to `b`. -/
def jsOrS (a b : Option String) : Option String :=
  match a with
  | some s => if s = "" then b else some s
  | none => b

/-- The JavaScript `a || d` operator where `d` is a (truthy) default
string, as in `opts.template || DEFAULT`. -/
def jsOrStr (a : Option String) (d : String) : String :=
  match a with
  | some s => if s = "" then d else s
  | none => d

/-- Drop leading and trailing JavaScript whitespace (`String.prototype.trim`). -/
def jsTrim (cs : List Char) : List Char :=
  ((cs.dropWhile jsWs).reverse.dropWhile jsWs).reverse

/-- `String.prototype.split` with a single-character separator. -/
def splitOnChar (sep : Char) : List Char → List (List Char)
  | [] => [[]]
  | c :: rest =>
    if c = sep then [] :: splitOnChar sep rest
    else
      match splitOnChar sep rest with
      | [] => [[c]]
      | p :: ps => (c :: p) :: ps

/-- `String.prototype.toLowerCase` (character-wise lowering). -/
def jsToLowerCase (s : String) : String := String.mk (s.data.map Char.toLower)

/-- Value of a list of decimal digit characters. -/
def digitsVal (cs : List Char) : Nat :=
  cs.foldl (fun acc c => 10 * acc + (c.toNat - 48)) 0

/-- Unsigned decimal literal: `digits`, `digits.digits`, `digits.` or
`.digits` (at least one digit overall). -/
def parseUnsignedDec (cs : List Char) : Option ℚ :=
  let intPart := cs.takeWhile Char.isDigit
  let rest := cs.dropWhile Char.isDigit
  match rest with
  | [] => if intPart = [] then none else some (digitsVal intPart)
  | c :: frac =>
    if c = '.' then
      if frac.all Char.isDigit ∧ (intPart ≠ [] ∨ frac ≠ []) then
        some ((digitsVal intPart : ℚ) + (digitsVal frac : ℚ) / ((10 : ℚ) ^ frac.length))
      else none
    else none

/-- The JavaScript `Number(s)` conversion on the decimal fragment: the
result is `none` exactly when `Number(s)` is `NaN`. -/
def jsNumber (s : String) : Option ℚ :=
  let cs := jsTrim s.data
  match cs with
  | [] => some 0
  | c :: rest =>
    if c = '+' then parseUnsignedDec rest
    else if c = '-' then (parseUnsignedDec rest).map (fun q => -q)
    else parseUnsignedDec cs

/-! ## Metadata bundle and merge (convert.ts lines 259-277) -/

/-- The seven textual tag fields of a metadata bundle.  `none` models a
field that is absent (`undefined`) at that layer. -/
structure MetaBundle where
  title : Option String
  artist : Option String
  album : Option String
  genre : Option String
  date : Option String
  track : Option String
  comment : Option String
deriving DecidableEq, Repr

/-- The bundle with every field absent. -/
def MetaBundle.empty : MetaBundle := ⟨none, none, none, none, none, none, none⟩

/-- The detected tag layer (convert.ts lines 260-268): container tags with
alias fallbacks, falling back to the filename heuristic for title/artist.
`autoTags k` models `autoTags[k]` on the lower-cased probed tag record. -/
def detectedTags (autoTags : String → Option String) (fileNameTags : MetaBundle) : MetaBundle :=
  { title := jsOrS (autoTags "title") (jsOrS (autoTags "itl") (jsOrS (autoTags "tracktitle") fileNameTags.title))
    artist := jsOrS (autoTags "artist") (jsOrS (autoTags "album_artist") (jsOrS (autoTags "author") fileNameTags.artist))
    album := autoTags "album"
    genre := autoTags "genre"
    date := jsOrS (autoTags "date") (autoTags "year")
    track := autoTags "track"
    comment := jsOrS (autoTags "comment") (autoTags "description") }

/-- The merge of detected and manual tags (convert.ts lines 270-274):
`merged[k] = preferDetected ? (detected[k] ?? manual[k]) : (manual[k] ?? detected[k])`. -/
def mergeMeta (preferDetected : Bool) (detected manual : MetaBundle) : MetaBundle :=
  let f : Option String → Option String → Option String := fun d m =>
    if preferDetected then jsNullish d m else jsNullish m d
  { title := f detected.title manual.title
    artist := f detected.artist manual.artist
    album := f detected.album manual.album
    genre := f detected.genre manual.genre
    date := f detected.date manual.date
    track := f detected.track manual.track
    comment := f detected.comment manual.comment }

/-! ## Concurrency bound (convert.ts lines 122-125) -/

/-- Throttle tier; `off` also models an absent `opts.throttle`. -/
inductive Throttle where
  | off
  | medium
  | low
deriving DecidableEq, Repr

/-- The effective concurrency bound: `Math.max(1, Math.min(64,
opts.concurrency ?? Math.max(1, Math.floor(cpus / 2))))`, then capped by
the throttle tier. -/
def effectiveConcurrency (cpus : Nat) (requested : Option Nat) (throttle : Throttle) : Nat :=
  let baseConc := max 1 (min 64 (requested.getD (max 1 (cpus / 2))))
  match throttle with
  | .low => min baseConc 1
  | .medium => min baseConc 2
  | .off => baseConc

/-! ## Trim parsing (convert.ts lines 65-74) and the trim window handed to
the encoder (ffmpeg buildBase, lines 179-185) -/

/-- A parsed trim range; `stop` is the source's `end` field (a Lean
keyword). -/
structure TrimRange where
  start : Option ℚ
  stop : Option ℚ
deriving DecidableEq, Repr

/-- Direct translation of `parseTrim`.  An absent argument and the empty
string are both falsy and yield the empty range; the second destructured
component being `undefined` behaves exactly like the empty string (both
falsy), so they are folded together. -/
def parseTrim (trim : Option String) : Except String TrimRange :=
  match trim with
  | none => Except.ok ⟨none, none⟩
  | some t =>
    if t = "" then Except.ok ⟨none, none⟩
    else
      let parts := splitOnChar '-' t.data
      let s := String.mk ((parts[0]?).getD [])
      let e := String.mk ((parts[1]?).getD [])
      if (s ≠ "" ∧ jsNumber s = none) ∨ (e ≠ "" ∧ jsNumber e = none) then
        Except.error "Invalid --trim format. Use start-end (seconds) or start"
      else
        Except.ok ⟨if s ≠ "" then jsNumber s else none,
                   if e ≠ "" then jsNumber e else none⟩

/-- The duration the encoder is configured with (`buildBase`): with both
endpoints, `max 0 (end - start)`; with only an end, `max 0 end`; otherwise
no explicit duration. -/
def trimDuration (t : TrimRange) : Option ℚ :=
  match t.stop, t.start with
  | some e, some s => some (max 0 (e - s))
  | some e, none => some (max 0 e)
  | none, _ => none

/-! ## Media extension allow-list and input resolution (convert.ts lines
57-63 and 136-152) -/

/-- Video container extensions (convert.ts line 57). -/
def VIDEO_EXTS : List String :=
  [".mp4", ".mov", ".mkv", ".avi", ".webm", ".flv", ".wmv", ".m4v", ".3gp"]

/-- Audio container extensions (convert.ts line 58). -/
def AUDIO_EXTS : List String :=
  [".mp3", ".wav", ".m4a", ".aac", ".flac", ".ogg", ".opus", ".wma"]

/-- Index of the last `.` in a character list. -/
def lastDotIdx (cs : List Char) : Option Nat :=
  (cs.reverse.findIdx? (fun c => c = '.')).map (fun j => cs.length - 1 - j)

/-- The final path segment (path separators simplified to `/`). -/
def baseSegment (p : String) : String := String.mk ((splitOnChar '/' p.data).getLastD [])

/-- Node's `path.extname`: the suffix of the base segment from its last
dot, empty when there is no dot or the only dot leads the segment
(dotfiles).  Node's multi-leading-dot corner cases (`".."`) are modelled
coarsely; they cannot carry a media extension either way. -/
def extname (p : String) : String :=
  let cs := (baseSegment p).data
  match lastDotIdx cs with
  | none => ""
  | some i => if i = 0 then "" else String.mk (cs.drop i)

/-- `isMediaLike` (convert.ts lines 60-63): the lower-cased extension is
on one of the two allow-lists (`Array.prototype.includes` is exact string
membership). -/
def isMediaLike (p : String) : Bool :=
  decide (jsToLowerCase (extname p) ∈ VIDEO_EXTS) || decide (jsToLowerCase (extname p) ∈ AUDIO_EXTS)

/-- Glob metacharacter test (convert.ts line 136): `/[\*\?\[\]\{\}!]/`. -/
def isGlobStr (s : String) : Bool :=
  s.data.any (fun c => c = '*' ∨ c = '?' ∨ c = '[' ∨ c = ']' ∨ c = '\x7b' ∨ c = '\x7d' ∨ c = '!')

/-- Windows-absolute test (convert.ts line 141): a UNC prefix or a drive
letter followed by `:\`. -/
def isWinAbs (s : String) : Bool :=
  "\\\\".data.isPrefixOf s.data ||
    (match s.data with
     | a :: b :: c :: _ => a.isAlpha && b = ':' && c = '\\'
     | _ => false)

/-- The filesystem view used for input resolution: whether an absolute
path exists as a regular file, resolution against the working directory,
and `relative(cwd, dirname input)` for structure preservation. -/
structure FsView where
  existsFile : String → Bool
  resolveAbs : String → String
  relDir : String → String

/-- Classification of the raw input list (convert.ts lines 139-147) into
direct file paths and glob patterns.  Empty entries are skipped; an entry
that resolves to an existing file is always direct; otherwise it is kept
only when it contains glob metacharacters. -/
def classifyInputs (fsv : FsView) (inputs : List String) : List String × List String :=
  inputs.foldl
    (fun acc inp =>
      if inp = "" then acc
      else
        let abs := if isWinAbs inp then inp else fsv.resolveAbs inp
        if fsv.existsFile abs then (acc.1 ++ [abs], acc.2)
        else if isGlobStr inp then (acc.1, acc.2 ++ [inp])
        else acc)
    ([], [])

/-- Helper for `jsSetDedup`: keep the elements not yet seen. -/
def jsSetDedupAux (seen : List String) : List String → List String
  | [] => []
  | x :: xs => if x ∈ seen then jsSetDedupAux seen xs else x :: jsSetDedupAux (x :: seen) xs

/-- `Array.from(new Set(l))`: first-occurrence-order deduplication. -/
def jsSetDedup (l : List String) : List String := jsSetDedupAux [] l

/-- The resolved candidate list (convert.ts lines 148-152): the direct
paths and the glob expansion (`globbed`, produced by the external
`fast-glob` call) are unioned, deduplicated, and filtered to media-like
paths. -/
def resolveCandidates (fsv : FsView) (inputs globbed : List String) : List String :=
  (jsSetDedup ((classifyInputs fsv inputs).1 ++ globbed)).filter (fun p => isMediaLike p)

/-! ## Output-name template expansion (convert.ts lines 171-183) -/

/-- First index at which `pat` occurs in `s`. -/
def findSubstrIdx (pat : List Char) : List Char → Option Nat
  | [] => if pat.isPrefixOf ([] : List Char) then some 0 else none
  | c :: tl =>
    if pat.isPrefixOf (c :: tl) then some 0
    else (findSubstrIdx pat tl).map (fun i => i + 1)

/-- `String.prototype.replace` with a plain-string pattern: replace the
first occurrence only.  (Dollar-escape sequences in the replacement are
not modelled; the replacements used by the template expansion never
contain them.) -/
def jsReplaceFirst (s pat rep : String) : String :=
  match findSubstrIdx pat.data s.data with
  | none => s
  | some i => String.mk (s.data.take i ++ rep.data ++ s.data.drop (i + pat.data.length))

/-- The naming-relevant options fed to template expansion. -/
structure NameOpts where
  template : Option String
  bitrateKbps : Option Nat
  vbrLevel : Option Int
  format : Option String
deriving DecidableEq, Repr

/-- Template expansion (convert.ts lines 171-175): the default template on
a falsy `opts.template`, then one `.replace` per recognized token. -/
def expandTemplate (o : NameOpts) (base ext : String) : String :=
  jsReplaceFirst
    (jsReplaceFirst
      (jsReplaceFirst
        (jsReplaceFirst (jsOrStr o.template "{basename}.mp3") "{basename}" base)
        "{ext}" ext)
      "{bitrate}" (match o.bitrateKbps with | some n => toString n | none => ""))
    "{vbr}" (match o.vbrLevel with | some v => toString v | none => "")

/-- The trailing-extension strip `tpl.replace(/\.[^\.]+$/, '')`: remove a
final dot followed by one or more non-dot characters. -/
def stripExt (tpl : String) : String :=
  let cs := tpl.data
  match lastDotIdx cs with
  | none => tpl
  | some i =>
    if i + 1 < cs.length ∧ ¬ '.' ∈ cs.drop (i + 1) then String.mk (cs.take i) else tpl

/-- The output extension from `opts.format` (convert.ts lines 176-180):
`.mp3` on a falsy format, `.m4a` for `aac`, `.<format>` otherwise. -/
def extOutOf (format : Option String) : String :=
  match format with
  | none => ".mp3"
  | some f => if f = "" then ".mp3" else if f = "aac" then ".m4a" else "." ++ f

/-- The computed output file name (convert.ts lines 171-183): template
expansion, then extension strip, then the format-determined extension. -/
def computeOutName (o : NameOpts) (base ext : String) : String :=
  stripExt (expandTemplate o base ext) ++ extOutOf o.format

/-! ## Filename metadata heuristic (convert.ts lines 76-113)

The source uses four JavaScript regular expressions.  The functions below
embed their matching semantics directly (lazy first group, greedy
whitespace, first-alternative-wins alternation, word boundaries).  Two
modelling notes: filenames are assumed to contain no newline (so `.`
matches every character), and a match whose second group would consist of
whitespace only is folded into a non-match — the source rejects such a
match anyway because the scrubbed group is empty, and in that situation
nothing but whitespace follows, so no other match of the same pattern
exists. -/

/-- A word character for the `\b` boundary: `[A-Za-z0-9_]`. -/
def isWordChar (c : Char) : Bool := c.isAlphanum || c = '_'

/-- The dash class `[-–]` (hyphen-minus and en dash). -/
def isDashChar (c : Char) : Bool := c = '-' || c = '–'

/-- Opening bracket class `(?:\(|\[|\{)`. -/
def isOpenB (c : Char) : Bool := c = '(' || c = '[' || c = '\x7b'

/-- Closing bracket class `(?:\)|\]|\})`. -/
def isCloseB (c : Char) : Bool := c = ')' || c = ']' || c = '\x7d'

/-- One global-replace pass of `/\s*(?:\(|\[|\{).*?(?:\)|\]|\})\s*/g`
with `' '`: at the leftmost position where optional whitespace is followed
by an opening bracket with some closing bracket after it, consume through
the first closing bracket and any trailing whitespace, emit one space, and
continue.  `fuel` bounds the recursion; the wrapper passes enough. -/
def sbScan : Nat → List Char → List Char
  | 0, cs => cs
  | _ + 1, [] => []
  | fuel + 1, c :: rest =>
    match (c :: rest).dropWhile jsWs with
    | o :: t =>
      if isOpenB o then
        match t.findIdx? isCloseB with
        | some j => ' ' :: sbScan fuel ((t.drop (j + 1)).dropWhile jsWs)
        | none => c :: sbScan fuel rest
      else c :: sbScan fuel rest
    | [] => c :: sbScan fuel rest

/-- Case-insensitive literal match (the regex carries the `i` flag);
returns the remaining input. -/
def matchCI : List Char → List Char → Option (List Char)
  | [], cs => some cs
  | _ :: _, [] => none
  | l :: ls, c :: cs => if c.toLower = l then matchCI ls cs else none

/-- Match `w1 \s* w2` case-insensitively. -/
def matchWordsWs (w1 w2 : String) (cs : List Char) : Option (List Char) :=
  (matchCI w1.data cs).bind (fun r => matchCI w2.data (r.dropWhile jsWs))

/-- The trailing `\b`: the next character (if any) is not a word
character.  (Every noise alternative ends in a word character.) -/
def boundaryOK : List Char → Bool
  | [] => true
  | c :: _ => !(isWordChar c)

/-- Apply the trailing word boundary to an alternative's result. -/
def withBoundary (r : Option (List Char)) : Option (List Char) :=
  r.bind (fun x => if boundaryOK x then some x else none)

/-- `remaster(?:ed)?\b`: the greedy optional group tries `ed` first,
backtracking when the boundary fails. -/
def matchRemaster (cs : List Char) : Option (List Char) :=
  (matchCI "remaster".data cs).bind (fun r =>
    match matchCI "ed".data r with
    | some r2 =>
      if boundaryOK r2 then some r2
      else if boundaryOK r then some r else none
    | none => if boundaryOK r then some r else none)

/-- The noise-token alternation, tried in source order at one position;
returns the input remaining after the match (trailing boundary included). -/
def matchNoise (cs : List Char) : Option (List Char) :=
  (withBoundary (matchWordsWs "official" "video" cs)).orElse (fun _ =>
  (withBoundary (matchWordsWs "official" "audio" cs)).orElse (fun _ =>
  (withBoundary (matchCI "lyrics".data cs)).orElse (fun _ =>
  (withBoundary (matchWordsWs "audio" "only" cs)).orElse (fun _ =>
  (withBoundary (matchCI "hd".data cs)).orElse (fun _ =>
  (withBoundary (matchCI "4k".data cs)).orElse (fun _ =>
  (matchRemaster cs).orElse (fun _ =>
  (withBoundary (matchCI "mv".data cs)).orElse (fun _ =>
  withBoundary (matchCI "clip".data cs)))))))))

/-- Global replace of the noise alternation with the empty string.
`prevWord` tracks whether the previous character of the original input is
a word character (for the leading `\b`); after a removal the previous
character is the final character of the match, always a word character. -/
def noiseScan : Nat → Bool → List Char → List Char
  | 0, _, cs => cs
  | _ + 1, _, [] => []
  | fuel + 1, prevWord, c :: rest =>
    if prevWord then c :: noiseScan fuel (isWordChar c) rest
    else
      match matchNoise (c :: rest) with
      | some rem => noiseScan fuel true rem
      | none => c :: noiseScan fuel (isWordChar c) rest

/-- Global replace of `/\s{2,}/` with a single space: a run of two or more
whitespace characters collapses to one space, a single whitespace
character is left as it is. -/
def collapseWs : Nat → List Char → List Char
  | 0, cs => cs
  | _ + 1, [] => []
  | fuel + 1, c :: rest =>
    if jsWs c then
      if (rest.takeWhile jsWs).isEmpty then c :: collapseWs fuel rest
      else ' ' :: collapseWs fuel (rest.dropWhile jsWs)
    else c :: collapseWs fuel rest

/-- The `scrub` helper (convert.ts lines 78-82): bracket-group removal,
noise-token removal, whitespace collapsing, trim. -/
def scrub (cs : List Char) : String :=
  let s1 := sbScan (cs.length + 1) cs
  let s2 := noiseScan (s1.length + 1) false s1
  let s3 := collapseWs (s2.length + 1) s2
  String.mk (jsTrim s3)

/-- Matcher for the tail of `^(.+?)\s*SEP\s*(.+)$` after the lazy first
group: whitespace, a separator character, whitespace, then a non-empty
second group. -/
def sepMatch (sep : Char → Bool) (cs : List Char) : Option (List Char) :=
  match cs.dropWhile jsWs with
  | d :: tail =>
    if sep d then
      match tail.dropWhile jsWs with
      | [] => none
      | g2 => some g2
    else none
  | [] => none

/-- Matcher for the tail of `^(.+?)\s+by\s+(.+)$` (case-insensitive)
after the lazy first group. -/
def byMatchFrom (cs : List Char) : Option (List Char) :=
  match cs with
  | c :: rest =>
    if jsWs c then
      match rest.dropWhile jsWs with
      | b :: y :: tail =>
        if (b.toLower = 'b') && (y.toLower = 'y') then
          match tail with
          | t :: _ =>
            if jsWs t then
              match tail.dropWhile jsWs with
              | [] => none
              | g2 => some g2
            else none
          | [] => none
        else none
      | _ => none
    else none
  | [] => none

/-- Lazy split `^(.+?) REST$`: the shortest non-empty first group such
that the tail matcher `m` accepts the remainder.  Returns the two groups. -/
def lazySplit (m : List Char → Option (List Char)) : List Char → List Char → Option (List Char × List Char)
  | _, [] => none
  | g1rev, c :: rest =>
    match m rest with
    | some g2 => some ((c :: g1rev).reverse, g2)
    | none => lazySplit m (c :: g1rev) rest

/-- `String.prototype.split(/\s*[-–]\s*/)`: parts between dash separators,
with the whitespace adjacent to each dash absorbed by the separator. -/
def splitDashParts : Nat → List Char → List (List Char)
  | 0, cs => [cs]
  | fuel + 1, cs =>
    match cs.findIdx? isDashChar with
    | none => [cs]
    | some d =>
      let before := ((cs.take d).reverse.dropWhile jsWs).reverse
      let after := (cs.drop (d + 1)).dropWhile jsWs
      before :: splitDashParts fuel after

/-- One pattern step of `detectFromFilename`: when the pattern matched,
scrub the two groups (the artist is the second group exactly when `swap`
is set, as in the `Title by Artist` pattern) and return the pair when both
are non-empty; otherwise fall through to the next pattern. -/
def tryPattern (r : Option (List Char × List Char)) (swap : Bool)
    (next : Option (String × String)) : Option (String × String) :=
  match r with
  | some (g1, g2) =>
    let artist := if swap then scrub g2 else scrub g1
    let title := if swap then scrub g1 else scrub g2
    if artist != "" && title != "" then some (artist, title) else next
  | none => next

/-- `detectFromFilename` (convert.ts lines 76-113): try `Artist - Title`,
`Title by Artist`, `Artist _ Title`, then a two-part dash-split fallback;
each candidate pair is scrubbed and the first pattern with two non-empty
results wins.  `some (artist, title)` models `{artist, title}`. -/
def detectFromFilename (fileBase : String) : Option (String × String) :=
  let cs := fileBase.data
  tryPattern (lazySplit (sepMatch isDashChar) [] cs) false
    (tryPattern (lazySplit byMatchFrom [] cs) true
      (tryPattern (lazySplit (sepMatch (fun c => c = '_')) [] cs) false
        (match splitDashParts (cs.length + 1) cs with
         | [p1, p2] => tryPattern (some (p1, p2)) false none
         | _ => none)))

/-! ## Loudness measurement parsing and the pass-2 filter (ffmpeg module,
`measureLoudness` lines 136-172 and `toMp3` lines 224-228) -/

/-- The optional statistics parsed from the pass-1 report. -/
structure LoudnessStats where
  measured_I : Option ℚ
  measured_TP : Option ℚ
  measured_LRA : Option ℚ
  measured_thresh : Option ℚ
deriving DecidableEq, Repr

/-- The empty stats object `{}`. -/
def LoudnessStats.empty : LoudnessStats := ⟨none, none, none, none⟩

/-- `String.prototype.indexOf` for a single character. -/
def jsIndexOfChar (cs : List Char) (c : Char) : Option Nat :=
  cs.findIdx? (fun x => x = c)

/-- `String.prototype.lastIndexOf` for a single character. -/
def jsLastIndexOfChar (cs : List Char) (c : Char) : Option Nat :=
  (cs.reverse.findIdx? (fun x => x = c)).map (fun j => cs.length - 1 - j)

/-- The end-handler of `measureLoudness`: slice the collected stderr text
from the first `{` through the last `}` and JSON-parse it; any failure
(no braces, or `JSON.parse` throwing — `parseJson` returning `none`)
resolves to the empty stats object instead of failing. -/
def measureLoudness (stderrText : String) (parseJson : String → Option LoudnessStats) : LoudnessStats :=
  let cs := stderrText.data
  match jsIndexOfChar cs '\x7b', jsLastIndexOfChar cs '\x7d' with
  | some s, some e =>
    match parseJson (String.mk ((cs.drop s).take (e + 1 - s))) with
    | some st => st
    | none => LoudnessStats.empty
  | some _, none => LoudnessStats.empty
  | none, _ => LoudnessStats.empty

/-- The parameters of the pass-2 `loudnorm` filter string built in
`toMp3` (line 226); string formatting aside, this is the full content of
the filter. -/
structure LoudnormFilter where
  input_I : ℚ
  input_TP : ℚ
  input_LRA : ℚ
  measured_I : ℚ
  measured_TP : ℚ
  measured_LRA : ℚ
  measured_thresh : ℚ
  linear : Bool
deriving DecidableEq, Repr

/-- The pass-2 filter: fixed targets, measured values with the static
fallbacks `-16`, `-1.5`, `11`, `-26` via `??`, linear mode. -/
def buildPass2Loudnorm (ln : LoudnessStats) : LoudnormFilter :=
  { input_I := -16
    input_TP := -(3 / 2)
    input_LRA := 11
    measured_I := ln.measured_I.getD (-16)
    measured_TP := ln.measured_TP.getD (-(3 / 2))
    measured_LRA := ln.measured_LRA.getD 11
    measured_thresh := ln.measured_thresh.getD (-26)
    linear := true }

/-! ## The per-task pipeline (convert.ts lines 167-309)

The model covers a run with GUI callbacks supplied (`useBars` false, no
terminal bars), which is the mode the event-contract claims are about.
`waitIfPaused`, the throttle delay and the cover-frame timestamp choice
do not affect anything the claims observe and are not tracked. -/

/-- One task-lifecycle event delivered to the callbacks. -/
inductive Ev where
  | start (index : Nat)
  | progress (percent : ℚ)
  | done (ok : Bool) (error : Option String)
deriving DecidableEq, Repr

/-- Whether an event is a start event. -/
def Ev.isStart : Ev → Bool
  | .start _ => true
  | _ => false

/-- Whether an event is a terminal done event. -/
def Ev.isDone : Ev → Bool
  | .done _ _ => true
  | _ => false

/-- One backend (transcoding-adapter) invocation. -/
inductive BackendCall where
  | probe
  | extractAttachedPicture
  | extractFrame
  | encode
deriving DecidableEq, Repr

/-- The behaviour of one encode attempt: the raw progress percentages the
backend reports through `onProgress`, and whether the attempt succeeds
(`err` is the error message surfaced when it does not). -/
structure AttemptOutcome where
  progress : List ℚ
  ok : Bool
  err : String
deriving Repr

/-- The abstract behaviour of the external engine for one task. -/
structure TaskEnv where
  /-- `none` models `probeTags` throwing (swallowed by the task); `some`
  carries the lower-cased tag record and the attached-picture stream
  index. -/
  probeResult : Option ((String → Option String) × Option Nat)
  /-- Whether `extractAttachedPicture` succeeds and leaves the temp file
  on disk. -/
  attachedExtractCreates : Bool
  /-- Whether the fallback `extractFrame` succeeds and leaves the temp
  file on disk. -/
  frameExtractCreates : Bool
  /-- Outcome of the i-th encode attempt. -/
  outcomes : Nat → AttemptOutcome

/-- Manual metadata supplied by the user (`opts.metadata`). -/
structure ManualMetadata where
  tags : MetaBundle
  coverImagePath : Option String
deriving DecidableEq, Repr

/-- The task-relevant options of a conversion request. -/
structure TaskOpts where
  overwrite : Bool
  dryRun : Bool
  /-- `opts.autoMeta !== false` (default true). -/
  autoMeta : Bool
  /-- `opts.preferDetected === true` (default false). -/
  preferDetected : Bool
  metadata : Option ManualMetadata
  /-- `opts.retry?.attempts`. -/
  retryAttempts : Option Nat
deriving Repr

/-- The retry loop (convert.ts lines 284-289): run attempts in order until
one succeeds, keeping only the last error.  Returns the concatenated raw
progress of the attempts actually run, the number of encode calls made,
and `none` on success or the surfaced (final) error. -/
def attemptLoop (outcomes : Nat → AttemptOutcome) : Nat → Nat → String → List ℚ × Nat × Option String
  | 0, _, lastErr => ([], 0, some lastErr)
  | n + 1, i, _ =>
    let a := outcomes i
    if a.ok then (a.progress, 1, none)
    else
      let r := attemptLoop outcomes n (i + 1) a.err
      (a.progress ++ r.1, r.2.1 + 1, r.2.2)

/-- Cover resolution (convert.ts lines 207-239): the user-supplied cover
wins; else the attached picture is extracted when the probe reports one;
else a frame is extracted.  Returns the resolved cover path, whether a
temp cover file was created, and the backend calls made.  Extraction
failures are swallowed (cover absent, never fatal). -/
def coverResolve (userCover : Option String) (env : TaskEnv) : Option String × Bool × List BackendCall :=
  let afterProbe : Option String × Bool × List BackendCall :=
    match env.probeResult with
    | none => (userCover, false, [BackendCall.probe])
    | some pr =>
      match userCover, pr.2 with
      | none, some _ =>
        if env.attachedExtractCreates then
          (some "TMP.cover.attached.jpg", true, [BackendCall.probe, BackendCall.extractAttachedPicture])
        else (none, false, [BackendCall.probe, BackendCall.extractAttachedPicture])
      | _, _ => (userCover, false, [BackendCall.probe])
  match afterProbe.1 with
  | some c => (some c, afterProbe.2.1, afterProbe.2.2)
  | none =>
    if env.frameExtractCreates then
      (some "TMP.cover.jpg", true, afterProbe.2.2 ++ [BackendCall.extractFrame])
    else (none, false, afterProbe.2.2 ++ [BackendCall.extractFrame])

/-- Everything observable about one task's execution. -/
structure TaskRun where
  /-- Events delivered to the callbacks, in order. -/
  events : List Ev
  /-- The reported `ConvertResult.ok`. -/
  ok : Bool
  /-- The reported `ConvertResult.error`. -/
  error : Option String
  /-- Backend invocations, in order. -/
  calls : List BackendCall
  /-- Whether a temp cover file was created. -/
  tempCoverCreated : Bool
  /-- How many times the temp cover file was unlinked. -/
  unlinkCount : Nat
  /-- Whether the output file was (re)written. -/
  wroteOutput : Bool
  /-- The merged metadata and cover handed to the encoder, when the
  pipeline got that far. -/
  mergedMeta : Option (MetaBundle × Option String)
deriving Repr

/-- The tag record of a probe result (`{}` when the probe threw). -/
def probeTagsOf (env : TaskEnv) : String → Option String :=
  match env.probeResult with
  | some pr => pr.1
  | none => fun _ => none

/-- The filename-heuristic tag layer (convert.ts lines 220-226). -/
def fileNameTagsOf (o : TaskOpts) (fileBase : String) : MetaBundle :=
  if o.autoMeta then
    match detectFromFilename fileBase with
    | some (a, t) => { MetaBundle.empty with artist := some a, title := some t }
    | none => MetaBundle.empty
  else MetaBundle.empty

/-- One task of `convertPaths` (lines 167-309): the skip-if-exists check,
the start event, the dry-run short cut, cover and metadata resolution, the
retry loop, cleanup and the terminal done event. -/
def runTask (o : TaskOpts) (env : TaskEnv) (outExists : Bool) (index : Nat) (fileBase : String) : TaskRun :=
  if !o.overwrite && outExists then
    { events := [], ok := true, error := none, calls := [], tempCoverCreated := false,
      unlinkCount := 0, wroteOutput := false, mergedMeta := none }
  else if o.dryRun then
    { events := [Ev.start index, Ev.done true none], ok := true, error := none, calls := [],
      tempCoverCreated := false, unlinkCount := 0, wroteOutput := false, mergedMeta := none }
  else
    let userCover := (o.metadata.map (fun m => m.coverImagePath)).getD none
    let cover := coverResolve userCover env
    let detected := detectedTags (probeTagsOf env) (fileNameTagsOf o fileBase)
    let manual := (o.metadata.map (fun m => m.tags)).getD MetaBundle.empty
    let merged := mergeMeta o.preferDetected detected manual
    let attempts := max 1 (o.retryAttempts.getD 1)
    let r := attemptLoop env.outcomes attempts 0 ""
    let okRun := r.2.2.isNone
    { events := Ev.start index :: (r.1.map Ev.progress ++ [Ev.done okRun r.2.2])
      ok := okRun
      error := r.2.2
      calls := cover.2.2 ++ List.replicate r.2.1 BackendCall.encode
      tempCoverCreated := cover.2.1
      unlinkCount := if cover.2.1 && okRun then 1 else 0
      wroteOutput := okRun
      mergedMeta := some (merged, cover.1) }

/-! ## The run level (convert.ts `convertPaths`) -/

/-- `extname(input).replace(/^\./, '')`. -/
def extNoDot (p : String) : String :=
  match (extname p).data with
  | c :: rest => if c = '.' then String.mk rest else extname p
  | [] => extname p

/-- Node's `basename(p, ext)`: the final segment, with the suffix `ext`
removed when it is a proper suffix of the segment. -/
def basenameNoExt (p : String) : String :=
  let b := baseSegment p
  let e := extname p
  if e != "" && e != b && e.data.isSuffixOf b.data then
    String.mk (b.data.take (b.data.length - e.data.length))
  else b

/-- A conversion request (the orchestration-relevant fields). -/
structure RunReq where
  task : TaskOpts
  name : NameOpts
  trim : Option String
  outDir : String
  keepStructure : Bool
  inputs : List String

/-- The computed output path of one input (convert.ts lines 168-183);
path joining is modelled with `/`. -/
def outPathFor (fsv : FsView) (req : RunReq) (input : String) : String :=
  let relDir := if req.keepStructure then fsv.relDir input else ""
  let dir := if relDir = "" then req.outDir else req.outDir ++ "/" ++ relDir
  dir ++ "/" ++ computeOutName req.name (basenameNoExt input) (extNoDot input)

/-- Run every task over the candidate list, threading the output
filesystem (path ↦ modification time), the start-index counter (claimed
only by non-skipped tasks, line 191) and a clock for fresh modification
times.  The scheduler's interleaving does not affect anything modelled
here, so tasks are threaded in candidate order. -/
def runAll (req : RunReq) (fsv : FsView) (envs : String → TaskEnv) :
    List String → (String → Option Nat) → Nat → Nat → List TaskRun × (String → Option Nat)
  | [], fs, _, _ => ([], fs)
  | input :: rest, fs, idx, clock =>
    let out := outPathFor fsv req input
    let ex := (fs out).isSome
    let tr := runTask req.task (envs input) ex idx (basenameNoExt input)
    let fs2 : String → Option Nat :=
      if tr.wroteOutput then fun p => if p = out then some clock else fs p else fs
    let idx2 := if !req.task.overwrite && ex then idx else idx + 1
    let r := runAll req fsv envs rest fs2 idx2 (clock + 1)
    (tr :: r.1, r.2)

/-- `convertPaths` (lines 120-314), scheduling level: input resolution,
the zero-candidate early return, the synchronous `parseTrim` call before
any task is created, then the tasks. -/
def convertPaths (req : RunReq) (fsv : FsView) (globbed : List String) (envs : String → TaskEnv)
    (fs0 : String → Option Nat) : Except String (List TaskRun × (String → Option Nat)) :=
  let candidates := resolveCandidates fsv req.inputs globbed
  if candidates.isEmpty then Except.ok ([], fs0)
  else
    match parseTrim req.trim with
    | Except.error e => Except.error e
    | Except.ok _ => Except.ok (runAll req fsv envs candidates fs0 0 0)

/-! ## Helper lemmas -/

/-- `jsNullish` picks its first argument exactly when it is present. -/
theorem jsNullish_eq (a b : Option String) : jsNullish a b = if a.isSome then a else b := by
  cases a <;> rfl

/-- Progress events are not start events. -/
theorem countP_isStart_map_progress (l : List ℚ) : (l.map Ev.progress).countP Ev.isStart = 0 := by
  induction l with
  | nil => rfl
  | cons q t ih => simp [List.countP_cons, Ev.isStart, ih]

/-- Progress events are not done events. -/
theorem countP_isDone_map_progress (l : List ℚ) : (l.map Ev.progress).countP Ev.isDone = 0 := by
  induction l with
  | nil => rfl
  | cons q t ih => simp [List.countP_cons, Ev.isDone, ih]

/-- The raw progress percentages forwarded by one task: none on a dry run,
otherwise the concatenation of the attempted encodes' reports. -/
def taskProgress (o : TaskOpts) (env : TaskEnv) : List ℚ :=
  if o.dryRun then [] else (attemptLoop env.outcomes (max 1 (o.retryAttempts.getD 1)) 0 "").1

/-! ## Claims -/

/-- Claim C4: the effective concurrency bound equals the requested
concurrency (or half the available processing units when absent) clamped
to [1,64], further capped to 1 for throttle `low` and 2 for `medium`, and
unchanged for `off`; in particular concurrency 4 with throttle `low` runs
at 1. -/
theorem claim_C4 :
    (∀ (cpus : Nat) (requested : Option Nat),
      effectiveConcurrency cpus requested Throttle.off
          = min 64 (max 1 (requested.getD (cpus / 2)))
      ∧ effectiveConcurrency cpus requested Throttle.low
          = min (min 64 (max 1 (requested.getD (cpus / 2)))) 1
      ∧ effectiveConcurrency cpus requested Throttle.medium
          = min (min 64 (max 1 (requested.getD (cpus / 2)))) 2)
    ∧ effectiveConcurrency 8 (some 4) Throttle.low = 1 := by
  constructor
  · intro cpus requested
    cases requested <;>
      refine ⟨?_, ?_, ?_⟩ <;>
        simp only [effectiveConcurrency, Option.getD_none, Option.getD_some] <;> omega
  · rfl

/-- Claim C5: with `preferDetected` true each merged field is the detected
value when present else the user override, with it false (the default) the
user override when present else the detected value; a bundle merged with
`preferDetected` false and a user-supplied title keeps that exact title. -/
theorem claim_C5 :
    (∀ (pd : Bool) (d m : MetaBundle),
      mergeMeta pd d m =
        { title := if pd then (if d.title.isSome then d.title else m.title)
                   else (if m.title.isSome then m.title else d.title)
          artist := if pd then (if d.artist.isSome then d.artist else m.artist)
                    else (if m.artist.isSome then m.artist else d.artist)
          album := if pd then (if d.album.isSome then d.album else m.album)
                   else (if m.album.isSome then m.album else d.album)
          genre := if pd then (if d.genre.isSome then d.genre else m.genre)
                   else (if m.genre.isSome then m.genre else d.genre)
          date := if pd then (if d.date.isSome then d.date else m.date)
                  else (if m.date.isSome then m.date else d.date)
          track := if pd then (if d.track.isSome then d.track else m.track)
                   else (if m.track.isSome then m.track else d.track)
          comment := if pd then (if d.comment.isSome then d.comment else m.comment)
                     else (if m.comment.isSome then m.comment else d.comment) })
    ∧ (∀ (d : MetaBundle) (t : String),
        (mergeMeta false d ⟨some t, none, none, none, none, none, none⟩).title = some t) := by
  constructor
  · intro pd d m
    cases pd <;> simp [mergeMeta, jsNullish_eq]
  · intro d t
    simp [mergeMeta, jsNullish_eq]

/-- Claim C7: when the pass-1 report has no brace-delimited block or the
JSON parse fails, `measureLoudness` returns the empty stats object rather
than failing, and the pass-2 filter built from empty stats uses the static
fallbacks measured_I = -16, measured_TP = -1.5, measured_LRA = 11,
measured_thresh = -26 in linear mode. -/
theorem claim_C7 :
    (∀ (s : String) (p : String → Option LoudnessStats),
      jsIndexOfChar s.data '\x7b' = none ∨ jsLastIndexOfChar s.data '\x7d' = none →
      measureLoudness s p = LoudnessStats.empty)
    ∧ (∀ (s : String) (p : String → Option LoudnessStats),
        (∀ x, p x = none) → measureLoudness s p = LoudnessStats.empty)
    ∧ buildPass2Loudnorm LoudnessStats.empty =
        ⟨-16, -(3 / 2), 11, -16, -(3 / 2), 11, -26, true⟩ := by
  refine ⟨?_, ?_, rfl⟩
  · intro s p h
    rcases h with h | h
    · simp only [measureLoudness, h]
    · simp only [measureLoudness, h]
      cases jsIndexOfChar s.data '\x7b' <;> rfl
  · intro s p h
    simp only [measureLoudness]
    cases jsIndexOfChar s.data '\x7b' with
    | none => rfl
    | some a =>
      cases jsLastIndexOfChar s.data '\x7d' with
      | none => rfl
      | some b => simp only [h]

/-- Witness for claim C7 at a report with no braces and a failing parse. -/
theorem claim_C7_witness :
    measureLoudness "stray text, no report" (fun _ => none) = LoudnessStats.empty :=
  claim_C7.2.1 "stray text, no report" (fun _ => none) (fun _ => rfl)

/-- Claim C2 counterexample: a task that creates a temp cover (via the
frame fallback) and then fails every encode attempt ends in failure with
the temp file never deleted, contradicting cleanup on both terminal
states. -/
theorem claim_C2_counterexample :
    (runTask ⟨true, false, true, false, none, none⟩
        ⟨some (fun _ => none, none), false, true, fun _ => ⟨[], false, "encode failed"⟩⟩
        false 0 "track").tempCoverCreated = true
    ∧ (runTask ⟨true, false, true, false, none, none⟩
        ⟨some (fun _ => none, none), false, true, fun _ => ⟨[], false, "encode failed"⟩⟩
        false 0 "track").ok = false
    ∧ (runTask ⟨true, false, true, false, none, none⟩
        ⟨some (fun _ => none, none), false, true, fun _ => ⟨[], false, "encode failed"⟩⟩
        false 0 "track").unlinkCount = 0 := by
  refine ⟨?_, ?_, ?_⟩ <;> rfl

/-- Claim C2 amended: a temp cover file created during a task's pipeline
is deleted exactly once when the task ends in success — once per task,
independent of the number of retry attempts — and is not deleted when the
task ends in failure. -/
theorem claim_C2_amended :
    ∀ (o : TaskOpts) (env : TaskEnv) (outExists : Bool) (index : Nat) (fileBase : String),
      (runTask o env outExists index fileBase).unlinkCount =
        if (runTask o env outExists index fileBase).tempCoverCreated
            && (runTask o env outExists index fileBase).ok then 1 else 0 := by
  intro o env outExists index fileBase
  unfold runTask
  by_cases h1 : (!o.overwrite && outExists) = true
  · simp [h1]
  · by_cases h2 : o.dryRun = true <;>
      simp [h1, h2]

/-- Claim C1 counterexample: with callbacks supplied, a task
short-circuited by the skip-if-exists check emits zero done events (the
claim demands exactly one for every task), and a non-skipped task forwards
the backend's raw percentages 0 and 150 to the consumer, outside the
claimed [1,99] range. -/
theorem claim_C1_counterexample :
    ¬ ((runTask ⟨false, false, true, false, none, none⟩
          ⟨some (fun _ => none, none), false, false, fun _ => ⟨[], true, ""⟩⟩
          true 0 "track").events.countP Ev.isDone = 1)
    ∧ (runTask ⟨true, false, true, false, none, none⟩
          ⟨some (fun _ => none, none), false, false, fun _ => ⟨[0, 150], true, ""⟩⟩
          false 0 "track").events
        = [Ev.start 0, Ev.progress 0, Ev.progress 150, Ev.done true none] := by
  constructor
  · decide
  · rfl

/-- Claim C1 amended: with event callbacks supplied, a task
short-circuited by the skip-if-exists check emits no events at all; every
other task emits exactly one start event, then its progress events —
forwarding the backend's percentages verbatim (the [1,99] clamp applies
only to the terminal progress bar, which is not created when callbacks are
supplied, and monotonicity is whatever the backend delivers) — then
exactly one terminal done event carrying the task's outcome. -/
theorem claim_C1_amended :
    ∀ (o : TaskOpts) (env : TaskEnv) (outExists : Bool) (index : Nat) (fileBase : String),
      ((runTask o env outExists index fileBase).events =
        if !o.overwrite && outExists then []
        else Ev.start index ::
          ((taskProgress o env).map Ev.progress
            ++ [Ev.done (runTask o env outExists index fileBase).ok
                  (runTask o env outExists index fileBase).error]))
      ∧ ((runTask o env outExists index fileBase).events.countP Ev.isStart =
          if !o.overwrite && outExists then 0 else 1)
      ∧ ((runTask o env outExists index fileBase).events.countP Ev.isDone =
          if !o.overwrite && outExists then 0 else 1) := by
  intro o env outExists index fileBase
  by_cases h1 : (!o.overwrite && outExists) = true
  · unfold runTask
    simp [h1]
  · have hev : (runTask o env outExists index fileBase).events =
        Ev.start index ::
          ((taskProgress o env).map Ev.progress
            ++ [Ev.done (runTask o env outExists index fileBase).ok
                  (runTask o env outExists index fileBase).error]) := by
      unfold runTask taskProgress
      by_cases h2 : o.dryRun = true <;> simp [h1, h2]
    refine ⟨by rw [hev]; simp [h1], ?_, ?_⟩ <;> rw [hev] <;> simp [h1, List.countP_cons, List.countP_append,
      countP_isStart_map_progress, countP_isDone_map_progress, Ev.isStart, Ev.isDone]

/-- Claim C6: `--trim 5-65` parses to start 5 and end 65, giving the
encoder the duration 60; `--trim 5` parses to start 5 with an open end; a
trim string with a truthy non-numeric component raises the synchronous
trim-format error; and at scheduling level a run with at least one
candidate and a malformed trim string aborts with that error before any
task is created. -/
instance : DecidableEq (Except String TrimRange) := fun a b =>
  match a, b with
  | .ok x, .ok y =>
    if h : x = y then isTrue (h ▸ rfl) else isFalse (fun hh => h (Except.ok.inj hh))
  | .error x, .error y =>
    if h : x = y then isTrue (h ▸ rfl) else isFalse (fun hh => h (Except.error.inj hh))
  | .ok _, .error _ => isFalse (fun hh => Except.noConfusion hh)
  | .error _, .ok _ => isFalse (fun hh => Except.noConfusion hh)

theorem claim_C6 :
    parseTrim (some "5-65") = Except.ok ⟨some 5, some 65⟩
    ∧ trimDuration ⟨some 5, some 65⟩ = some 60
    ∧ parseTrim (some "5") = Except.ok ⟨some 5, none⟩
    ∧ (∀ (t : String),
        (String.mk (((splitOnChar '-' t.data)[0]?).getD []) ≠ ""
            ∧ jsNumber (String.mk (((splitOnChar '-' t.data)[0]?).getD [])) = none)
          ∨ (String.mk (((splitOnChar '-' t.data)[1]?).getD []) ≠ ""
            ∧ jsNumber (String.mk (((splitOnChar '-' t.data)[1]?).getD [])) = none) →
        parseTrim (some t) = Except.error "Invalid --trim format. Use start-end (seconds) or start")
    ∧ (∀ (req : RunReq) (fsv : FsView) (globbed : List String) (envs : String → TaskEnv)
          (fs0 : String → Option Nat) (e : String),
        resolveCandidates fsv req.inputs globbed ≠ [] →
        parseTrim req.trim = Except.error e →
        convertPaths req fsv globbed envs fs0 = Except.error e) := by
  refine ⟨by decide, ?_, by decide, ?_, ?_⟩
  · simp only [trimDuration]
    norm_num
  · intro t h
    have ht : t ≠ "" := by
      intro he
      subst he
      revert h
      decide
    simp only [parseTrim, if_neg ht]
    rw [if_pos h]
  · intro req fsv globbed envs fs0 e hne herr
    simp only [convertPaths]
    rw [if_neg, herr]
    simp only [List.isEmpty_iff]
    exact hne

/-- Witness for claim C6: the malformed trim string `5-x` aborts a run
with one media candidate before any task exists. -/
theorem claim_C6_witness :
    parseTrim (some "5-x") = Except.error "Invalid --trim format. Use start-end (seconds) or start"
    ∧ convertPaths ⟨⟨false, false, true, false, none, none⟩, ⟨none, none, none, none⟩,
          some "5-x", "out", false, ["a.mp3"]⟩
        ⟨fun _ => true, id, fun _ => ""⟩ [] (fun _ => ⟨none, false, false, fun _ => ⟨[], true, ""⟩⟩)
        (fun _ => none)
      = Except.error "Invalid --trim format. Use start-end (seconds) or start" := by
  constructor
  · exact claim_C6.2.2.2.1 "5-x" (Or.inr ⟨by decide, by decide⟩)
  · exact claim_C6.2.2.2.2 ⟨⟨false, false, true, false, none, none⟩, ⟨none, none, none, none⟩,
        some "5-x", "out", false, ["a.mp3"]⟩
      ⟨fun _ => true, id, fun _ => ""⟩ [] (fun _ => ⟨none, false, false, fun _ => ⟨[], true, ""⟩⟩)
      (fun _ => none) "Invalid --trim format. Use start-end (seconds) or start"
      (by decide)
      (claim_C6.2.2.2.1 "5-x" (Or.inr ⟨by decide, by decide⟩))

/-- A successful substring search means the pattern is not found at any
earlier index. -/
theorem findSubstrIdx_min (pat : List Char) :
    ∀ (s : List Char) (i : Nat), findSubstrIdx pat s = some i →
      ∀ j, j < i → pat.isPrefixOf (s.drop j) = false := by
  intro s
  induction s with
  | nil =>
    intro i h j hj
    simp only [findSubstrIdx] at h
    split at h
    · cases h
      omega
    · cases h
  | cons c tl ih =>
    intro i h j hj
    simp only [findSubstrIdx] at h
    split at h
    · cases h
      omega
    · rename_i hpre
      rcases Option.map_eq_some'.mp h with ⟨i', hi', rfl⟩
      cases j with
      | zero =>
        simpa using Bool.not_eq_true _ ▸ (by simpa using hpre)
      | succ j' =>
        rw [List.drop_succ_cons]
        exact ih i' hi' j' (by omega)

/-- Claim C10 (implicit): each template token is substituted once: a
plain-string `.replace` rewrites only the first occurrence, leaving the
prefix before it (which holds no occurrence) and the entire remainder —
later occurrences included — verbatim; concretely, a template naming
`{basename}` twice keeps the second occurrence literally in the computed
output file name. -/
theorem claim_C10 :
    (∀ (s tok rep : String) (i : Nat), findSubstrIdx tok.data s.data = some i →
      (jsReplaceFirst s tok rep).data
          = s.data.take i ++ rep.data ++ s.data.drop (i + tok.data.length)
      ∧ ∀ j, j < i → tok.data.isPrefixOf (s.data.drop j) = false)
    ∧ computeOutName ⟨some "{basename}-{basename}.mp3", none, none, none⟩ "song" "mp4"
        = "song-{basename}.mp3" := by
  refine ⟨?_, by decide⟩
  intro s tok rep i h
  constructor
  · simp only [jsReplaceFirst, h]
  · exact findSubstrIdx_min tok.data s.data i h

/-- Witness for claim C10 at the template-shaped string `{x}a{x}` with
token `{x}`. -/
theorem claim_C10_witness :
    ("{x}a{x}".data.take 0 ++ "Y".data ++ "{x}a{x}".data.drop (0 + "{x}".data.length)
        = (jsReplaceFirst "{x}a{x}" "{x}" "Y").data)
    ∧ (jsReplaceFirst "{x}a{x}" "{x}" "Y") = "Ya{x}" := by
  constructor
  · exact ((claim_C10.1 "{x}a{x}" "{x}" "Y" 0 (by decide)).1).symm
  · decide

/-- Deduplication only keeps elements of the input. -/
theorem mem_jsSetDedupAux : ∀ (l seen : List String) (y : String),
    y ∈ jsSetDedupAux seen l → y ∈ l := by
  intro l
  induction l with
  | nil => intro seen y h; cases h
  | cons x xs ih =>
    intro seen y h
    simp only [jsSetDedupAux] at h
    split at h
    · exact List.mem_cons_of_mem _ (ih seen y h)
    · rcases List.mem_cons.mp h with rfl | h
      · exact List.mem_cons_self _ _
      · exact List.mem_cons_of_mem _ (ih (x :: seen) y h)

/-- Deduplication avoids everything already seen. -/
theorem not_mem_seen_jsSetDedupAux : ∀ (l seen : List String) (y : String),
    y ∈ jsSetDedupAux seen l → y ∉ seen := by
  intro l
  induction l with
  | nil => intro seen y h; cases h
  | cons x xs ih =>
    intro seen y h
    simp only [jsSetDedupAux] at h
    split at h
    · exact ih seen y h
    · rename_i hx
      rcases List.mem_cons.mp h with rfl | h
      · exact hx
      · intro hy
        exact ih (x :: seen) y h (List.mem_cons_of_mem _ hy)

/-- The deduplicated list has no duplicates. -/
theorem jsSetDedupAux_nodup : ∀ (l seen : List String), (jsSetDedupAux seen l).Nodup := by
  intro l
  induction l with
  | nil => intro seen; exact List.nodup_nil
  | cons x xs ih =>
    intro seen
    simp only [jsSetDedupAux]
    split
    · exact ih seen
    · refine List.nodup_cons.mpr ⟨?_, ih (x :: seen)⟩
      intro hx
      exact not_mem_seen_jsSetDedupAux xs (x :: seen) x hx (List.mem_cons_self _ _)

/-- Claim C9: for every input list — overlapping globs and repeated
literals included — the resolved candidate list contains each absolute
path exactly once, and every candidate's lower-cased extension is on the
fixed video/audio allow-list. -/
theorem claim_C9 :
    ∀ (fsv : FsView) (inputs globbed : List String),
      (resolveCandidates fsv inputs globbed).Nodup
      ∧ (∀ p, p ∈ resolveCandidates fsv inputs globbed →
          (resolveCandidates fsv inputs globbed).count p = 1)
      ∧ (∀ p, p ∈ resolveCandidates fsv inputs globbed →
          jsToLowerCase (extname p) ∈ VIDEO_EXTS ∨ jsToLowerCase (extname p) ∈ AUDIO_EXTS) := by
  intro fsv inputs globbed
  have hnd : (resolveCandidates fsv inputs globbed).Nodup :=
    List.Nodup.filter _ (jsSetDedupAux_nodup _ [])
  refine ⟨hnd, ?_, ?_⟩
  · intro p hp
    exact List.count_eq_one_of_mem hnd hp
  · intro p hp
    have hm := List.of_mem_filter hp
    have : isMediaLike p = true := hm
    simp only [isMediaLike, Bool.or_eq_true, decide_eq_true_eq] at this
    exact this

/-- Witness for claim C9: a run naming `a.mp3` twice directly and once via
the glob expansion resolves it to a single candidate with an allow-listed
extension. -/
theorem claim_C9_witness :
    (resolveCandidates ⟨fun _ => true, id, fun _ => ""⟩ ["a.mp3", "a.mp3"] ["a.mp3"]).count "a.mp3" = 1
    ∧ (jsToLowerCase (extname "a.mp3") ∈ VIDEO_EXTS ∨ jsToLowerCase (extname "a.mp3") ∈ AUDIO_EXTS) :=
  ⟨(claim_C9 ⟨fun _ => true, id, fun _ => ""⟩ ["a.mp3", "a.mp3"] ["a.mp3"]).2.1 "a.mp3" (by decide),
   (claim_C9 ⟨fun _ => true, id, fun _ => ""⟩ ["a.mp3", "a.mp3"] ["a.mp3"]).2.2 "a.mp3" (by decide)⟩

/-- The record reported by a skipped task. -/
def skipRun : TaskRun :=
  ⟨[], true, none, [], false, 0, false, none⟩

/-- A task whose output already exists is, without overwrite, an immediate
success with no events, no backend calls and no write. -/
theorem runTask_skip (o : TaskOpts) (env : TaskEnv) (idx : Nat) (base : String)
    (how : o.overwrite = false) : runTask o env true idx base = skipRun := by
  unfold runTask
  rw [if_pos]
  · rfl
  · rw [how]
    rfl

/-- A non-skipped, non-dry task that reports success wrote its output. -/
theorem runTask_ok_wrote (o : TaskOpts) (env : TaskEnv) (ex : Bool) (idx : Nat) (base : String)
    (hdr : o.dryRun = false) (hskip : (!o.overwrite && ex) = false)
    (hok : (runTask o env ex idx base).ok = true) :
    (runTask o env ex idx base).wroteOutput = true := by
  unfold runTask at hok ⊢
  rw [if_neg, if_neg] at hok ⊢
  all_goals first
    | exact hok
    | simp only [hdr, Bool.false_eq_true, not_false_eq_true]
    | simp only [hskip, Bool.false_eq_true, not_false_eq_true]

/-- Running further tasks never removes an existing output file. -/
theorem runAll_fs_mono (req : RunReq) (fsv : FsView) (envs : String → TaskEnv) :
    ∀ (cs : List String) (fs : String → Option Nat) (idx clock : Nat) (p : String),
      (fs p).isSome = true → ((runAll req fsv envs cs fs idx clock).2 p).isSome = true := by
  intro cs
  induction cs with
  | nil => intro fs idx clock p h; exact h
  | cons input rest ih =>
    intro fs idx clock p h
    simp only [runAll]
    apply ih
    split
    · by_cases hp : p = outPathFor fsv req input <;> simp [hp, h]
    · exact h

/-- After a run in which every task reported success (no overwrite, no dry
run), every candidate's computed output file exists. -/
theorem runAll_allOk_outputs (req : RunReq) (fsv : FsView) (envs : String → TaskEnv)
    (_how : req.task.overwrite = false) (hdr : req.task.dryRun = false) :
    ∀ (cs : List String) (fs : String → Option Nat) (idx clock : Nat),
      (∀ tr ∈ (runAll req fsv envs cs fs idx clock).1, tr.ok = true) →
      ∀ input ∈ cs, ((runAll req fsv envs cs fs idx clock).2 (outPathFor fsv req input)).isSome = true := by
  intro cs
  induction cs with
  | nil => intro fs idx clock _ input hin; cases hin
  | cons i rest ih =>
    intro fs idx clock hok input hin
    have hok0 : (runTask req.task (envs i) ((fs (outPathFor fsv req i)).isSome) idx
        (basenameNoExt i)).ok = true := by
      apply hok
      simp only [runAll]
      exact List.mem_cons_self _ _
    have hoktail : ∀ tr ∈ (runAll req fsv envs rest
        (if (runTask req.task (envs i) ((fs (outPathFor fsv req i)).isSome) idx
              (basenameNoExt i)).wroteOutput then
            fun p => if p = outPathFor fsv req i then some clock else fs p
          else fs)
        (if !req.task.overwrite && (fs (outPathFor fsv req i)).isSome then idx else idx + 1)
        (clock + 1)).1, tr.ok = true := by
      intro tr htr
      apply hok
      simp only [runAll]
      exact List.mem_cons_of_mem _ htr
    have hfs2 : ((if (runTask req.task (envs i) ((fs (outPathFor fsv req i)).isSome) idx
          (basenameNoExt i)).wroteOutput then
            fun p => if p = outPathFor fsv req i then some clock else fs p
          else fs) (outPathFor fsv req i)).isSome = true := by
      cases hex : (fs (outPathFor fsv req i)).isSome with
      | true =>
        split
        · simp
        · exact hex
      | false =>
        have hw := runTask_ok_wrote req.task (envs i) ((fs (outPathFor fsv req i)).isSome) idx
          (basenameNoExt i) hdr (by rw [hex]; exact Bool.and_false _) (by rw [hex] at hok0 ⊢; exact hok0)
        rw [hex] at hw
        rw [if_pos hw]
        simp
    rcases List.mem_cons.mp hin with rfl | hin
    · simp only [runAll]
      exact runAll_fs_mono req fsv envs rest _ _ _ _ hfs2
    · simp only [runAll]
      exact ih _ _ _ hoktail input hin

/-- When every candidate's output already exists and overwrite is off,
every task takes the skip path and the filesystem is untouched. -/
theorem runAll_all_skip (req : RunReq) (fsv : FsView) (envs : String → TaskEnv)
    (how : req.task.overwrite = false) :
    ∀ (cs : List String) (fs : String → Option Nat) (idx clock : Nat),
      (∀ input ∈ cs, (fs (outPathFor fsv req input)).isSome = true) →
      (∀ tr ∈ (runAll req fsv envs cs fs idx clock).1, tr = skipRun)
      ∧ (runAll req fsv envs cs fs idx clock).2 = fs := by
  intro cs
  induction cs with
  | nil => intro fs idx clock _; exact ⟨fun tr htr => absurd htr (List.not_mem_nil _), rfl⟩
  | cons i rest ih =>
    intro fs idx clock hex
    have hexi := hex i (List.mem_cons_self _ _)
    have htr : runTask req.task (envs i) ((fs (outPathFor fsv req i)).isSome) idx
        (basenameNoExt i) = skipRun := by
      rw [hexi]
      exact runTask_skip _ _ _ _ how
    have hfs2 : (if (runTask req.task (envs i) ((fs (outPathFor fsv req i)).isSome) idx
          (basenameNoExt i)).wroteOutput then
            fun p => if p = outPathFor fsv req i then some clock else fs p
          else fs) = fs := by
      rw [htr]
      rfl
    have ihr := ih fs (if !req.task.overwrite && (fs (outPathFor fsv req i)).isSome then idx else idx + 1)
      (clock + 1) (fun input hin => hex input (List.mem_cons_of_mem _ hin))
    constructor
    · intro tr htrm
      simp only [runAll, hfs2] at htrm
      rcases List.mem_cons.mp htrm with rfl | htrm
      · exact htr
      · exact ihr.1 tr htrm
    · simp only [runAll, hfs2]
      exact ihr.2

/-- Claim C3: a task whose computed output exists under `overwrite=false`
is an immediate success with no backend call (no probe, no cover
extraction, no encode), no events and no write; consequently, after a
fully successful run, a second identical run reports every task successful
with zero backend calls and leaves the output filesystem — modification
times included — unchanged. -/
theorem claim_C3 :
    (∀ (o : TaskOpts) (env : TaskEnv) (idx : Nat) (base : String), o.overwrite = false →
      runTask o env true idx base
        = { events := [], ok := true, error := none, calls := [], tempCoverCreated := false,
            unlinkCount := 0, wroteOutput := false, mergedMeta := none })
    ∧ (∀ (req : RunReq) (fsv : FsView) (globbed : List String) (envs : String → TaskEnv)
          (fs0 : String → Option Nat) (out1 : List TaskRun × (String → Option Nat)),
        req.task.overwrite = false → req.task.dryRun = false →
        convertPaths req fsv globbed envs fs0 = Except.ok out1 →
        (∀ tr ∈ out1.1, tr.ok = true) →
        ∃ out2, convertPaths req fsv globbed envs out1.2 = Except.ok out2
          ∧ (∀ tr ∈ out2.1,
              tr.ok = true ∧ tr.calls = [] ∧ tr.events = [] ∧ tr.wroteOutput = false)
          ∧ out2.2 = out1.2) := by
  constructor
  · intro o env idx base how
    exact runTask_skip o env idx base how
  · intro req fsv globbed envs fs0 out1 how hdr hrun hok
    simp only [convertPaths] at hrun ⊢
    by_cases hemp : (resolveCandidates fsv req.inputs globbed).isEmpty = true
    · rw [if_pos hemp] at hrun ⊢
      cases hrun
      exact ⟨([], fs0), rfl, fun tr htr => absurd htr (List.not_mem_nil _), rfl⟩
    · rw [if_neg hemp] at hrun ⊢
      cases hpt : parseTrim req.trim with
      | error e => rw [hpt] at hrun; cases hrun
      | ok t =>
        rw [hpt] at hrun
        cases hrun
        have houts := runAll_allOk_outputs req fsv envs how hdr
          (resolveCandidates fsv req.inputs globbed) fs0 0 0 hok
        have hskipall := runAll_all_skip req fsv envs how
          (resolveCandidates fsv req.inputs globbed)
          ((runAll req fsv envs (resolveCandidates fsv req.inputs globbed) fs0 0 0).2) 0 0 houts
        refine ⟨runAll req fsv envs (resolveCandidates fsv req.inputs globbed)
          ((runAll req fsv envs (resolveCandidates fsv req.inputs globbed) fs0 0 0).2) 0 0, rfl, ?_, hskipall.2⟩
        intro tr htr
        rw [hskipall.1 tr htr]
        exact ⟨rfl, rfl, rfl, rfl⟩

/-- Concrete request for the claim C3 witness. -/
def c3req : RunReq :=
  ⟨⟨false, false, true, false, none, none⟩, ⟨none, none, none, none⟩, none, "out", false, ["a.mp3"]⟩

/-- Concrete filesystem view for the claim C3 witness. -/
def c3fsv : FsView := ⟨fun _ => true, id, fun _ => ""⟩

/-- Concrete backend behaviour for the claim C3 witness. -/
def c3envs : String → TaskEnv :=
  fun _ => ⟨some (fun _ => none, none), false, false, fun _ => ⟨[], true, ""⟩⟩

/-- The first run of the claim C3 witness. -/
def c3run1 : List TaskRun × (String → Option Nat) :=
  runAll c3req c3fsv c3envs (resolveCandidates c3fsv c3req.inputs []) (fun _ => none) 0 0

/-- Witness for claim C3: one candidate, a succeeding backend; the first
run succeeds, and the second run is all skips with the filesystem — hence
every modification time — unchanged. -/
theorem claim_C3_witness :
    ∃ out2, convertPaths c3req c3fsv [] c3envs c3run1.2 = Except.ok out2
      ∧ (∀ tr ∈ out2.1, tr.ok = true ∧ tr.calls = [] ∧ tr.events = [] ∧ tr.wroteOutput = false)
      ∧ out2.2 = c3run1.2 :=
  claim_C3.2 c3req c3fsv [] c3envs (fun _ => none) c3run1 rfl rfl rfl (by decide)

/-- A pattern whose scrubbed groups are both non-empty wins. -/
theorem tryPattern_pos (g1 g2 : List Char) (next : Option (String × String))
    (h1 : scrub g1 ≠ "") (h2 : scrub g2 ≠ "") :
    tryPattern (some (g1, g2)) false next = some (scrub g1, scrub g2) := by
  simp [tryPattern, bne_iff_ne, h1, h2]

/-- A swapped pattern whose scrubbed groups are both non-empty wins with
the groups exchanged. -/
theorem tryPattern_pos_swap (g1 g2 : List Char) (next : Option (String × String))
    (h1 : scrub g1 ≠ "") (h2 : scrub g2 ≠ "") :
    tryPattern (some (g1, g2)) true next = some (scrub g2, scrub g1) := by
  simp [tryPattern, bne_iff_ne, h1, h2]

/-- A pattern that did not match, or whose scrubbed groups are not both
non-empty, falls through to the next pattern. -/
theorem tryPattern_fallthrough (r : Option (List Char × List Char)) (swap : Bool)
    (next : Option (String × String))
    (hfail : ∀ h1 h2, r = some (h1, h2) → scrub h1 = "" ∨ scrub h2 = "") :
    tryPattern r swap next = next := by
  cases r with
  | none => rfl
  | some pr =>
    obtain ⟨a, b⟩ := pr
    rcases hfail a b rfl with h | h <;> cases swap <;> simp [tryPattern, h]

/-- Claim C8: the filename heuristic tries `Artist - Title`,
`Title by Artist`, `Artist _ Title` and the two-part dash-split fallback
in that order; each candidate pair is scrubbed and the first pattern
yielding two non-empty strings wins, every pattern failing yields no
detection; and the base name
`Daft Punk - One More Time (Official Video)` detects artist `Daft Punk`
and title `One More Time`. -/
theorem claim_C8 :
    detectFromFilename "Daft Punk - One More Time (Official Video)"
        = some ("Daft Punk", "One More Time")
    ∧ (∀ (s : String) (g1 g2 : List Char),
        lazySplit (sepMatch isDashChar) [] s.data = some (g1, g2) →
        scrub g1 ≠ "" → scrub g2 ≠ "" →
        detectFromFilename s = some (scrub g1, scrub g2))
    ∧ (∀ (s : String) (g1 g2 : List Char),
        (∀ h1 h2, lazySplit (sepMatch isDashChar) [] s.data = some (h1, h2) →
          scrub h1 = "" ∨ scrub h2 = "") →
        lazySplit byMatchFrom [] s.data = some (g1, g2) →
        scrub g1 ≠ "" → scrub g2 ≠ "" →
        detectFromFilename s = some (scrub g2, scrub g1))
    ∧ (∀ (s : String) (g1 g2 : List Char),
        (∀ h1 h2, lazySplit (sepMatch isDashChar) [] s.data = some (h1, h2) →
          scrub h1 = "" ∨ scrub h2 = "") →
        (∀ h1 h2, lazySplit byMatchFrom [] s.data = some (h1, h2) →
          scrub h1 = "" ∨ scrub h2 = "") →
        lazySplit (sepMatch (fun c => c = '_')) [] s.data = some (g1, g2) →
        scrub g1 ≠ "" → scrub g2 ≠ "" →
        detectFromFilename s = some (scrub g1, scrub g2))
    ∧ (∀ (s : String),
        (∀ h1 h2, lazySplit (sepMatch isDashChar) [] s.data = some (h1, h2) →
          scrub h1 = "" ∨ scrub h2 = "") →
        (∀ h1 h2, lazySplit byMatchFrom [] s.data = some (h1, h2) →
          scrub h1 = "" ∨ scrub h2 = "") →
        (∀ h1 h2, lazySplit (sepMatch (fun c => c = '_')) [] s.data = some (h1, h2) →
          scrub h1 = "" ∨ scrub h2 = "") →
        (∀ p1 p2, splitDashParts (s.data.length + 1) s.data = [p1, p2] →
          scrub p1 = "" ∨ scrub p2 = "") →
        detectFromFilename s = none) := by
  refine ⟨by decide, ?_, ?_, ?_, ?_⟩
  · intro s g1 g2 hd h1 h2
    simp only [detectFromFilename, hd]
    exact tryPattern_pos g1 g2 _ h1 h2
  · intro s g1 g2 hfail hby h1 h2
    simp only [detectFromFilename, hby]
    rw [tryPattern_fallthrough (lazySplit (sepMatch isDashChar) [] s.data) false _ hfail]
    exact tryPattern_pos_swap g1 g2 _ h1 h2
  · intro s g1 g2 hfail1 hfail2 hus h1 h2
    simp only [detectFromFilename, hus]
    rw [tryPattern_fallthrough (lazySplit (sepMatch isDashChar) [] s.data) false _ hfail1,
      tryPattern_fallthrough (lazySplit byMatchFrom [] s.data) true _ hfail2]
    exact tryPattern_pos g1 g2 _ h1 h2
  · intro s hfail1 hfail2 hfail3 hfall
    simp only [detectFromFilename]
    rw [tryPattern_fallthrough (lazySplit (sepMatch isDashChar) [] s.data) false _ hfail1,
      tryPattern_fallthrough (lazySplit byMatchFrom [] s.data) true _ hfail2,
      tryPattern_fallthrough (lazySplit (sepMatch (fun c => c = '_')) [] s.data) false _ hfail3]
    cases hl : splitDashParts (s.data.length + 1) s.data with
    | nil => rfl
    | cons p1 t1 =>
      cases t1 with
      | nil => rfl
      | cons p2 t2 =>
        cases t2 with
        | nil =>
          rcases hfall p1 p2 hl with h | h <;> simp [tryPattern, h]
        | cons p3 t3 => rfl

/-- Witness for claim C8: the dash pattern on `AB - CD`, the by-pattern on
`CD by AB`, the underscore pattern on `AB _ CD`, and the no-detection case
on `hello`. -/
theorem claim_C8_witness :
    detectFromFilename "AB - CD" = some (scrub "AB".data, scrub "CD".data)
    ∧ detectFromFilename "CD by AB" = some (scrub "AB".data, scrub "CD".data)
    ∧ detectFromFilename "AB _ CD" = some (scrub "AB".data, scrub "CD".data)
    ∧ detectFromFilename "hello" = none := by
  refine ⟨?_, ?_, ?_, ?_⟩
  · exact claim_C8.2.1 "AB - CD" "AB".data "CD".data (by decide) (by decide) (by decide)
  · exact claim_C8.2.2.1 "CD by AB" "CD".data "AB".data
      (fun h1 h2 hh => Option.noConfusion
        ((by decide : lazySplit (sepMatch isDashChar) [] "CD by AB".data = none).symm.trans hh))
      (by decide) (by decide) (by decide)
  · exact claim_C8.2.2.2.1 "AB _ CD" "AB".data "CD".data
      (fun h1 h2 hh => Option.noConfusion
        ((by decide : lazySplit (sepMatch isDashChar) [] "AB _ CD".data = none).symm.trans hh))
      (fun h1 h2 hh => Option.noConfusion
        ((by decide : lazySplit byMatchFrom [] "AB _ CD".data = none).symm.trans hh))
      (by decide) (by decide) (by decide)
  · refine claim_C8.2.2.2.2 "hello" ?_ ?_ ?_ ?_
    · exact fun h1 h2 hh => Option.noConfusion
        ((by decide : lazySplit (sepMatch isDashChar) [] "hello".data = none).symm.trans hh)
    · exact fun h1 h2 hh => Option.noConfusion
        ((by decide : lazySplit byMatchFrom [] "hello".data = none).symm.trans hh)
    · exact fun h1 h2 hh => Option.noConfusion
        ((by decide : lazySplit (sepMatch (fun c => c = '_')) [] "hello".data = none).symm.trans hh)
    · intro p1 p2 hh
      rw [show splitDashParts ("hello".data.length + 1) "hello".data = ["hello".data] from by decide] at hh
      simp at hh

end TuneFlip
